import Mathlib

/-!
Verification of the change-risk gatekeeper core against its specification.

The development shallowly embeds the TypeScript modules of the repository:
glob-pattern compilation and matching (risk-tier-helpers), the risk-assessment
engine (risk-tier), the docs-drift checker (docs-drift), browser-evidence
validation (browser-evidence), SHA-discipline polling (sha-discipline), and
the finding adjudication / remediation loop (remediation-loop).

Modelling conventions used throughout:
- JavaScript numbers that only ever hold integers are modelled as Int
  (counters that only ever increase from 0 as Nat);
- a thrown exception is an Except error value; the JavaScript RegExp
  constructor raising SyntaxError on an invalid pattern is the error case of
  glob compilation, and it propagates through every matcher call site exactly
  where the original code would throw;
- injected asynchronous callbacks are explicit function arguments; awaiting
  them is ordinary application;
- Date.now readings are an explicit clock argument (one reading per loop
  iteration in the polling loop, one reading in evidence-age validation), and
  a parsed ISO-8601 timestamp is represented by its epoch-millisecond value.
-/

namespace GPC

/-! ## Glob compilation (risk-tier-helpers.ts, globToRegExp)

The source escapes the regular-expression metacharacters of the class
of dot, plus, caret, dollar, braces, parentheses, bar, brackets and
backslash (note: NOT the question mark), rewrites a double star to the
placeholder text, a single star to a single-segment wildcard, the
placeholder to an any-run wildcard, and anchors the result.  The compiled
regular expression therefore consists of literal characters, the
single-segment wildcard, the cross-segment wildcard, and optional literals
arising from an unescaped question mark applied to the preceding atom.
An unescaped question mark with no preceding quantifiable atom makes the
RegExp constructor throw a SyntaxError, modelled by a none result. -/

/-- Token of a compiled glob: a literal character, a wildcard run
(seg true is the single-segment wildcard which excludes the slash,
seg false is the cross-segment wildcard which excludes only line
terminators, as an unflagged dot does in a JavaScript RegExp), or an
optional literal produced by an unescaped question mark. -/
inductive GTok where
  | lit (c : Char)
  | star (seg : Bool)
  | opt (c : Char)
deriving DecidableEq, Repr

/-- Scanner state recording what the previously emitted regex construct was,
used to interpret an unescaped question mark exactly as the RegExp parser
would: after an atom it quantifies the atom, after a greedy quantifier it is
a lazy marker, elsewhere it is a syntax error. -/
inductive PrevKind where
  | start
  | atom
  | quant
  | lazy
deriving DecidableEq, Repr

/-- The placeholder text the source substitutes for a double star; a literal
occurrence of this text in a pattern is also rewritten to the cross-segment
wildcard by the final replacement. -/
def globstarPlaceholder : List Char := "<<GLOBSTAR>>".toList

/-- Scan the pattern characters into compiled glob tokens, mirroring the
string rewriting of globToRegExp followed by the RegExp parse.  Returns none
exactly when the rewritten pattern is not a valid regular expression (a
question mark with nothing to repeat). -/
def globScan : List Char → PrevKind → List GTok → Option (List GTok)
  | [], _, acc => some acc.reverse
  | c :: cs, prev, acc =>
    if (c :: cs).take 12 = globstarPlaceholder then
      globScan ((c :: cs).drop 12) PrevKind.quant (GTok.star false :: acc)
    else if c = '*' then
      match cs with
      | '*' :: rest => globScan rest PrevKind.quant (GTok.star false :: acc)
      | rest => globScan rest PrevKind.quant (GTok.star true :: acc)
    else if c = '?' then
      match prev, acc with
      | PrevKind.atom, GTok.lit x :: acc2 => globScan cs PrevKind.quant (GTok.opt x :: acc2)
      | PrevKind.quant, acc2 => globScan cs PrevKind.lazy acc2
      | _, _ => none
    else globScan cs PrevKind.atom (GTok.lit c :: acc)
termination_by cs _ _ => cs.length
decreasing_by
  all_goals simp only [List.length_drop, List.length_cons]
  all_goals omega

/-- Whether a wildcard run may consume character d: the single-segment
wildcard refuses the slash, the cross-segment wildcard (an unflagged dot)
refuses line terminators. -/
def starAllows (seg : Bool) (d : Char) : Bool :=
  if seg then d != '/'
  else !(d == '\n' || d == '\r' || d == Char.ofNat 8232 || d == Char.ofNat 8233)

/-- Anchored matching of a compiled glob token list against the characters of
a path: the whole path must be consumed, mirroring the caret and dollar
anchors the source adds around the rewritten pattern. -/
def gtokMatch : List GTok → List Char → Bool
  | [], [] => true
  | [], _ :: _ => false
  | GTok.lit _ :: _, [] => false
  | GTok.lit c :: ts, d :: ds => c == d && gtokMatch ts ds
  | GTok.opt _ :: ts, [] => gtokMatch ts []
  | GTok.opt c :: ts, d :: ds => gtokMatch ts (d :: ds) || (c == d && gtokMatch ts ds)
  | GTok.star _ :: ts, [] => gtokMatch ts []
  | GTok.star seg :: ts, d :: ds =>
      gtokMatch ts (d :: ds) || (starAllows seg d && gtokMatch (GTok.star seg :: ts) ds)
termination_by ts s => (s.length, ts.length)

/-- Compile a glob pattern; none models the RegExp constructor throwing a
SyntaxError. -/
def globToRegExp (pattern : String) : Option (List GTok) :=
  globScan pattern.toList PrevKind.start []

/-- matchesAny from risk-tier-helpers.ts: test the path against each pattern
in order with short-circuiting; a compilation failure of a reached pattern
propagates as a thrown SyntaxError, modelled by the error case. -/
def matchesAny (filePath : String) : List String → Except Unit Bool
  | [] => Except.ok false
  | p :: ps =>
    match globToRegExp p with
    | none => Except.error ()
    | some toks =>
      if gtokMatch toks filePath.toList then Except.ok true else matchesAny filePath ps

/-- matchedFiles from risk-tier-helpers.ts: filter the files to those
matching any pattern, in input order; a thrown SyntaxError from a reached
pattern propagates. -/
def matchedFiles (files : List String) (patterns : List String) : Except Unit (List String) :=
  match files with
  | [] => Except.ok []
  | f :: fs => do
    let b ← matchesAny f patterns
    let rest ← matchedFiles fs patterns
    pure (if b then f :: rest else rest)

/-! ## Policy contract data model (contract.ts) -/

/-- Risk tier, the RiskTier union of contract.ts. -/
inductive RiskTier where
  | high
  | low
deriving DecidableEq, Repr

/-- MergePolicyEntry of contract.ts. -/
structure MergePolicyEntry where
  requiredChecks : List String
  requireCodeReviewAgent : Bool
  requireBrowserEvidence : Bool
deriving DecidableEq, Repr

/-- An entry of docsDriftRules.coverageByPathClass in contract.ts. -/
structure CoverageByPathClass where
  id : String
  triggerPaths : List String
  requiredDocPaths : List String
  reason : String
deriving DecidableEq, Repr

/-- DocsDriftRules of contract.ts. -/
structure DocsDriftRules where
  controlPlanePaths : List String
  requiredDocPaths : List String
  coverageByPathClass : Option (List CoverageByPathClass)
deriving DecidableEq, Repr

/-- BrowserEvidenceConfig of contract.ts; maxAgeDays is an integral number
of days. -/
structure BrowserEvidenceConfig where
  requiredFlows : List String
  requiredFields : List String
  maxAgeDays : Int
deriving DecidableEq, Repr

/-- ReviewAgentConfig of contract.ts. -/
structure ReviewAgentConfig where
  name : String
  rerunWorkflow : String
  autoResolveWorkflow : String
  timeoutMinutes : Int
deriving DecidableEq, Repr

/-- RemediationAgentConfig of contract.ts. -/
structure RemediationAgentConfig where
  name : String
  enabled : Bool
  pinModel : Bool
  skipStaleComments : Bool
deriving DecidableEq, Repr

/-- HarnessGapLoopConfig of contract.ts. -/
structure HarnessGapLoopConfig where
  enabled : Bool
  issueLabel : String
  slaTracking : Bool
deriving DecidableEq, Repr

/-- RiskPolicyContract of contract.ts.  The riskTierRules record indexed by
the two tiers is represented by one field per tier, likewise mergePolicy. -/
structure RiskPolicyContract where
  version : String
  riskTierRulesHigh : List String
  riskTierRulesLow : List String
  mergePolicyHigh : MergePolicyEntry
  mergePolicyLow : MergePolicyEntry
  docsDriftRules : DocsDriftRules
  browserEvidence : BrowserEvidenceConfig
  reviewAgent : ReviewAgentConfig
  remediationAgent : RemediationAgentConfig
  harnessGapLoop : HarnessGapLoopConfig
deriving DecidableEq, Repr

/-! ## Risk assessment engine (risk-tier.ts, risk-tier-helpers.ts) -/

/-- HistoricalSignalEntry of risk-tier-helpers.ts; the weight is an
arbitrary integer supplied by the metadata file. -/
structure HistoricalSignalEntry where
  pattern : String
  weight : Int
  reason : String
deriving DecidableEq, Repr

/-- HistoricalRiskMetadata of risk-tier-helpers.ts. -/
structure HistoricalRiskMetadata where
  version : String
  recentFlakyTests : List HistoricalSignalEntry
  incidentTaggedFiles : List HistoricalSignalEntry
  priorRollbackAreas : List HistoricalSignalEntry
deriving DecidableEq, Repr

/-- The category union of RiskExplanationSignal. -/
inductive SignalCategory where
  | contractRule
  | semanticPublicApi
  | semanticAuthPermissions
  | semanticMigration
  | semanticWorkflow
  | historyFlakyTests
  | historyIncidents
  | historyRollbacks
deriving DecidableEq, Repr

/-- RiskExplanationSignal of risk-tier-helpers.ts. -/
structure RiskExplanationSignal where
  category : SignalCategory
  signal : String
  weight : Int
  rationale : String
  matchedFiles : List String
deriving DecidableEq, Repr

/-- The explanation record nested in RiskAssessment. -/
structure RiskExplanation where
  triggeredSignals : List RiskExplanationSignal
  scoreBreakdown : List String
deriving DecidableEq, Repr

/-- RiskAssessment of risk-tier-helpers.ts. -/
structure RiskAssessment where
  tier : RiskTier
  score : Int
  threshold : Int
  changedFiles : List String
  explanation : RiskExplanation
deriving DecidableEq, Repr

/-- A semantic signal definition, an element of SEMANTIC_SIGNALS. -/
structure SemanticSignalDef where
  category : SignalCategory
  signal : String
  patterns : List String
  weight : Int
  rationale : String
deriving DecidableEq, Repr

/-- SEMANTIC_SIGNALS of risk-tier-helpers.ts. -/
def SEMANTIC_SIGNALS : List SemanticSignalDef :=
  [{ category := SignalCategory.semanticPublicApi,
     signal := "public-api-change",
     patterns := ["**/src/index.ts", "**/*.d.ts", "app/api/**"],
     weight := 20,
     rationale := "Public API changes can impact downstream consumers." },
   { category := SignalCategory.semanticAuthPermissions,
     signal := "auth-or-permissions-touchpoint",
     patterns := ["**/auth/**", "**/permissions/**", "**/rbac/**", "**/policy/**"],
     weight := 25,
     rationale := "Auth and permission changes are security-sensitive." },
   { category := SignalCategory.semanticMigration,
     signal := "migration-change",
     patterns := ["**/migrations/**", "**/*.sql", "db/schema.ts"],
     weight := 20,
     rationale := "Schema/migration changes are higher-risk to production data paths." },
   { category := SignalCategory.semanticWorkflow,
     signal := "workflow-change",
     patterns := [".github/workflows/**", "scripts/**"],
     weight := 15,
     rationale := "Workflow changes can alter CI/CD and governance execution." }]

/-- EMPTY_HISTORICAL_METADATA of risk-tier-helpers.ts. -/
def EMPTY_HISTORICAL_METADATA : HistoricalRiskMetadata :=
  { version := "1", recentFlakyTests := [], incidentTaggedFiles := [], priorRollbackAreas := [] }

/-- HIGH_RISK_THRESHOLD of risk-tier-helpers.ts. -/
def HIGH_RISK_THRESHOLD : Int := 60

/-- The sort applied to the changed-file list on entry of
computeRiskAssessment.  The JavaScript default array sort orders strings
lexicographically; the sorted rearrangement of a list of strings is unique,
so a stable insertion sort over the string order denotes it. -/
def sortFiles (files : List String) : List String :=
  List.insertionSort (fun a b : String => a ≤ b) files

/-- scoreHistoricalSignals of risk-tier.ts: one signal per metadata entry
whose single pattern matches at least one file, carrying the weight and
reason of the entry. -/
def scoreHistoricalSignals (files : List String) (entries : List HistoricalSignalEntry)
    (category : SignalCategory) (signalLabel : String) :
    Except Unit (List RiskExplanationSignal) :=
  match entries with
  | [] => Except.ok []
  | e :: rest => do
    let ms ← matchedFiles files [e.pattern]
    let tail ← scoreHistoricalSignals files rest category signalLabel
    pure (if ms.isEmpty then tail
      else { category := category, signal := signalLabel ++ ":" ++ e.pattern,
             weight := e.weight, rationale := e.reason, matchedFiles := ms } :: tail)

/-- The loop of computeRiskAssessment over SEMANTIC_SIGNALS: one signal per
definition with at least one matching file. -/
def semanticSignalsFor (files : List String) :
    List SemanticSignalDef → Except Unit (List RiskExplanationSignal)
  | [] => Except.ok []
  | s :: rest => do
    let ms ← matchedFiles files s.patterns
    let tail ← semanticSignalsFor files rest
    pure (if ms.isEmpty then tail
      else { category := s.category, signal := s.signal, weight := s.weight,
             rationale := s.rationale, matchedFiles := ms } :: tail)

/-- The contract-rule signal of computeRiskAssessment: emitted once, with
weight 70, when any file matches a high-tier contract pattern. -/
def contractRuleSignals (highRuleMatches : List String) : List RiskExplanationSignal :=
  if highRuleMatches.isEmpty then []
  else [{ category := SignalCategory.contractRule,
          signal := "high-tier-contract-pattern",
          weight := 70,
          rationale := "Matched explicit high-risk pattern from risk-policy contract.",
          matchedFiles := highRuleMatches }]

/-- The signal-collection phase of computeRiskAssessment, in source order:
contract rule, the four semantic definitions, then the three historical
categories. -/
def collectSignals (files : List String) (contract : RiskPolicyContract)
    (historicalMetadata : HistoricalRiskMetadata) :
    Except Unit (List RiskExplanationSignal) := do
  let highRuleMatches ← matchedFiles files contract.riskTierRulesHigh
  let semantic ← semanticSignalsFor files SEMANTIC_SIGNALS
  let flaky ← scoreHistoricalSignals files historicalMetadata.recentFlakyTests
    SignalCategory.historyFlakyTests "flaky"
  let incident ← scoreHistoricalSignals files historicalMetadata.incidentTaggedFiles
    SignalCategory.historyIncidents "incident"
  let rollback ← scoreHistoricalSignals files historicalMetadata.priorRollbackAreas
    SignalCategory.historyRollbacks "rollback"
  pure (contractRuleSignals highRuleMatches ++ semantic ++ flaky ++ incident ++ rollback)

/-- The assessment-construction phase of computeRiskAssessment: score is the
left fold of the signal weights from zero, tier compares the score with the
threshold, and each breakdown line renders one signal. -/
def buildAssessment (files : List String) (triggeredSignals : List RiskExplanationSignal) :
    RiskAssessment :=
  let score := triggeredSignals.foldl (fun total s => total + s.weight) 0
  let tier : RiskTier := if HIGH_RISK_THRESHOLD ≤ score then RiskTier.high else RiskTier.low
  let scoreBreakdown := triggeredSignals.map
    (fun s => s.signal ++ " (+" ++ toString s.weight ++ ") => " ++
      String.intercalate ", " s.matchedFiles)
  { tier := tier, score := score, threshold := HIGH_RISK_THRESHOLD,
    changedFiles := files, explanation := { triggeredSignals := triggeredSignals,
                                            scoreBreakdown := scoreBreakdown } }

/-- computeRiskAssessment of risk-tier.ts: sort the changed files, collect
the triggered signals, and build the assessment. -/
def computeRiskAssessment (changedFiles : List String) (contract : RiskPolicyContract)
    (historicalMetadata : HistoricalRiskMetadata := EMPTY_HISTORICAL_METADATA) :
    Except Unit RiskAssessment := do
  let files := sortFiles changedFiles
  let sigs ← collectSignals files contract historicalMetadata
  pure (buildAssessment files sigs)

/-- computeRiskTier of risk-tier.ts. -/
def computeRiskTier (changedFiles : List String) (contract : RiskPolicyContract)
    (historicalMetadata : HistoricalRiskMetadata := EMPTY_HISTORICAL_METADATA) :
    Except Unit RiskTier := do
  let a ← computeRiskAssessment changedFiles contract historicalMetadata
  pure a.tier

/-! ## SHA discipline (sha-discipline.ts) -/

/-- The status union of ReviewState. -/
inductive ReviewStatus where
  | success
  | failure
  | pending
deriving DecidableEq, Repr

/-- ReviewState of sha-discipline.ts. -/
structure ReviewState where
  headSha : String
  status : ReviewStatus
  hasActionableFindings : Bool
deriving DecidableEq, Repr

/-- The timeout message thrown by waitForReviewCompletion. -/
def reviewTimeoutMessage (timeoutMinutes : Int) (headSha : String) : String :=
  "Review agent timed out after " ++ toString timeoutMinutes ++ " minutes for SHA " ++ headSha

/-- The polling loop of waitForReviewCompletion.  Date.now at the k-th loop
condition check is clock k, and the k-th pollFn call returns poll k; the
sleep between iterations advances the ambient clock.  The loop runs for at
most fuel iterations starting at iteration k; a none result means the
observation window ended before the loop did.  An ok result returns the
first non-pending non-null poll result; an error result is the timeout
throw once the clock reaches the deadline. -/
def waitLoop (deadline : Int) (timeoutMinutes : Int) (headSha : String)
    (clock : Nat → Int) (poll : Nat → Option ReviewState) :
    Nat → Nat → Option (Except String ReviewState)
  | 0, _ => none
  | fuel + 1, k =>
    if clock k < deadline then
      match poll k with
      | some s =>
        if s.status ≠ ReviewStatus.pending then some (Except.ok s)
        else waitLoop deadline timeoutMinutes headSha clock poll fuel (k + 1)
      | none => waitLoop deadline timeoutMinutes headSha clock poll fuel (k + 1)
    else some (Except.error (reviewTimeoutMessage timeoutMinutes headSha))

/-- waitForReviewCompletion of sha-discipline.ts.  The entry Date.now reading
is start, the deadline is start plus timeoutMinutes times 60000 ms, and
pollIntervalMs is the sleep between iterations (its passage is reflected in
the clock argument). -/
def waitForReviewCompletion (fuel : Nat) (headSha : String) (timeoutMinutes : Int)
    (pollIntervalMs : Int) (start : Int) (clock : Nat → Int)
    (poll : Nat → Option ReviewState) : Option (Except String ReviewState) :=
  let _ := pollIntervalMs
  waitLoop (start + timeoutMinutes * 60000) timeoutMinutes headSha clock poll fuel 0

/-! ## Browser evidence validation (browser-evidence.ts) -/

/-- BrowserEvidenceEntry of browser-evidence.ts.  The timestamp field holds
the epoch-millisecond value of the parsed ISO-8601 timestamp string, the
value the source computes with getTime. -/
structure BrowserEvidenceEntry where
  flowName : String
  entrypoint : String
  accountIdentity : String
  timestamp : Int
  artifacts : List String
deriving DecidableEq, Repr

/-- BrowserEvidenceManifest of browser-evidence.ts. -/
structure BrowserEvidenceManifest where
  headSha : String
  entries : List BrowserEvidenceEntry
deriving DecidableEq, Repr

/-- Dynamic field lookup entry of field, as the required-fields check of
validateBrowserEvidence performs it: a string field is missing when empty
(undefined, null or empty string are all rejected by the source); the
timestamp and artifacts fields are never the empty string; an unknown field
name reads undefined and is always missing. -/
def entryFieldMissing (e : BrowserEvidenceEntry) (field : String) : Bool :=
  if field = "flowName" then e.flowName = ""
  else if field = "entrypoint" then e.entrypoint = ""
  else if field = "accountIdentity" then e.accountIdentity = ""
  else if field = "timestamp" then false
  else if field = "artifacts" then false
  else true

/-- The required-flows check of validateBrowserEvidence. -/
def checkRequiredFlows (entries : List BrowserEvidenceEntry) :
    List String → Except String Unit
  | [] => Except.ok ()
  | flow :: rest =>
    if entries.any (fun e => e.flowName = flow) then checkRequiredFlows entries rest
    else Except.error ("Missing browser evidence for required flow: " ++ flow)

/-- The per-entry required-fields loop of validateBrowserEvidence. -/
def checkEntryFields (e : BrowserEvidenceEntry) : List String → Except String Unit
  | [] => Except.ok ()
  | field :: rest =>
    if entryFieldMissing e field then
      Except.error ("Browser evidence entry \"" ++ e.flowName ++
        "\" missing required field: " ++ field)
    else checkEntryFields e rest

/-- The required-fields check over all entries of validateBrowserEvidence. -/
def checkAllEntryFields (fields : List String) :
    List BrowserEvidenceEntry → Except String Unit
  | [] => Except.ok ()
  | e :: rest => do
    checkEntryFields e fields
    checkAllEntryFields fields rest

/-- The age check of validateBrowserEvidence; now is the Date.now reading. -/
def checkEvidenceAge (maxAgeDays : Int) (now : Int) :
    List BrowserEvidenceEntry → Except String Unit
  | [] => Except.ok ()
  | e :: rest =>
    if maxAgeDays * 24 * 60 * 60 * 1000 < now - e.timestamp then
      Except.error ("Browser evidence for \"" ++ e.flowName ++ "\" is older than " ++
        toString maxAgeDays ++ " days")
    else checkEvidenceAge maxAgeDays now rest

/-- validateBrowserEvidence of browser-evidence.ts: SHA freshness first, then
required flows, then required fields on every entry, then the age ceiling. -/
def validateBrowserEvidence (manifest : BrowserEvidenceManifest)
    (contract : RiskPolicyContract) (currentHeadSha : String) (now : Int) :
    Except String Unit :=
  let config := contract.browserEvidence
  if manifest.headSha ≠ currentHeadSha then
    Except.error ("Browser evidence SHA mismatch: expected " ++ currentHeadSha ++
      ", got " ++ manifest.headSha)
  else do
    checkRequiredFlows manifest.entries config.requiredFlows
    checkAllEntryFields config.requiredFields manifest.entries
    checkEvidenceAge config.maxAgeDays now manifest.entries

/-! ## Docs drift (docs-drift.ts) -/

/-- Failure cases of assertDocsDriftRules: either a propagated SyntaxError
from glob compilation, or the drift error thrown by the checker itself. -/
inductive DriftFailure where
  | regexInvalid
  | drift (message : String)
deriving DecidableEq, Repr

/-- The some-file-matches test of docs-drift.ts, changedFiles.some over
matchesAny, with short-circuiting and SyntaxError propagation. -/
def someFileMatches (files : List String) (patterns : List String) : Except Unit Bool :=
  match files with
  | [] => Except.ok false
  | f :: fs => do
    let b ← matchesAny f patterns
    if b then pure true else someFileMatches fs patterns

/-- The message of the drift error thrown by assertDocsDriftRules, naming the
required documentation patterns. -/
def driftErrorMessage (requiredDocPaths : List String) : String :=
  "Control-plane files changed but no documentation was updated. " ++
    "Please update at least one file matching: " ++
    String.intercalate ", " requiredDocPaths

/-- assertDocsDriftRules of docs-drift.ts: succeed when no control-plane file
was touched; otherwise require at least one changed file matching a required
documentation pattern, and throw the drift error naming those patterns when
none does. -/
def assertDocsDriftRules (changedFiles : List String) (contract : RiskPolicyContract) :
    Except DriftFailure Unit :=
  match someFileMatches changedFiles contract.docsDriftRules.controlPlanePaths with
  | Except.error _ => Except.error DriftFailure.regexInvalid
  | Except.ok false => Except.ok ()
  | Except.ok true =>
    match someFileMatches changedFiles contract.docsDriftRules.requiredDocPaths with
    | Except.error _ => Except.error DriftFailure.regexInvalid
    | Except.ok true => Except.ok ()
    | Except.ok false =>
      Except.error (DriftFailure.drift
        (driftErrorMessage contract.docsDriftRules.requiredDocPaths))

/-! ## Review findings and adjudication (remediation-loop.ts) -/

/-- FindingSeverity of remediation-loop.ts. -/
inductive FindingSeverity where
  | critical
  | high
  | medium
  | low
  | info
deriving DecidableEq, Repr

/-- FindingConfidence of remediation-loop.ts. -/
inductive FindingConfidence where
  | high
  | medium
  | low
deriving DecidableEq, Repr

/-- FindingCategory of remediation-loop.ts. -/
inductive FindingCategory where
  | style
  | security
  | architecture
  | correctness
  | performance
  | maintainability
  | other
deriving DecidableEq, Repr

/-- ReviewFinding of remediation-loop.ts; the optional fingerprint is an
Option, with some of the empty string corresponding to an empty-string
fingerprint (present but falsy in JavaScript). -/
structure ReviewFinding where
  providers : List String
  file : String
  line : Int
  message : String
  severity : FindingSeverity
  confidence : FindingConfidence
  category : FindingCategory
  headSha : String
  fingerprint : Option String
deriving DecidableEq, Repr

/-- RemediationConfig of remediation-loop.ts; maxAttempts is a non-negative
count. -/
structure RemediationConfig where
  pinModel : Bool
  skipStaleComments : Bool
  maxAttempts : Nat
deriving DecidableEq, Repr

/-- RemediationResult of remediation-loop.ts. -/
structure RemediationResult where
  attempted : Nat
  succeeded : Nat
  skipped : Nat
  errors : List String
deriving DecidableEq, Repr

/-- SEVERITY_RANK of remediation-loop.ts. -/
def severityRank : FindingSeverity → Int
  | FindingSeverity.critical => 5
  | FindingSeverity.high => 4
  | FindingSeverity.medium => 3
  | FindingSeverity.low => 2
  | FindingSeverity.info => 1

/-- CONFIDENCE_RANK of remediation-loop.ts. -/
def confidenceRank : FindingConfidence → Int
  | FindingConfidence.high => 3
  | FindingConfidence.medium => 2
  | FindingConfidence.low => 1

/-- findingPriority of remediation-loop.ts. -/
def findingPriority (f : ReviewFinding) : Int :=
  severityRank f.severity * 10 + confidenceRank f.confidence

/-- The category string used inside a derived duplicate key. -/
def categoryName : FindingCategory → String
  | FindingCategory.style => "style"
  | FindingCategory.security => "security"
  | FindingCategory.architecture => "architecture"
  | FindingCategory.correctness => "correctness"
  | FindingCategory.performance => "performance"
  | FindingCategory.maintainability => "maintainability"
  | FindingCategory.other => "other"

/-- Collapse every maximal run of whitespace to a single space, the replace
of a whitespace-run regular expression in buildDuplicateKey; the flag records
whether the previous character belonged to a run already replaced. -/
def collapseWhitespace : Bool → List Char → List Char
  | _, [] => []
  | inRun, c :: rest =>
    if c.isWhitespace then
      if inRun then collapseWhitespace true rest
      else ' ' :: collapseWhitespace true rest
    else c :: collapseWhitespace false rest

/-- The message normalization of buildDuplicateKey: trim, lower-case each
character, collapse whitespace runs.  Char.isWhitespace stands for the
JavaScript whitespace class and Char.toLower for toLowerCase. -/
def normalizedMessage (message : String) : String :=
  let trimmed := ((message.toList.dropWhile Char.isWhitespace).reverse.dropWhile
    Char.isWhitespace).reverse
  (collapseWhitespace false (trimmed.map Char.toLower)).asString

/-- The derived duplicate key of a finding without usable fingerprint. -/
def derivedKey (f : ReviewFinding) : String :=
  f.file ++ ":" ++ toString f.line ++ ":" ++ categoryName f.category ++ ":" ++
    normalizedMessage f.message

/-- buildDuplicateKey of remediation-loop.ts: the fingerprint when present
and truthy (a present empty string is falsy and ignored), else the derived
file, line, category and normalized-message key. -/
def buildDuplicateKey (f : ReviewFinding) : String :=
  match f.fingerprint with
  | some fp => if fp = "" then derivedKey f else fp
  | none => derivedKey f

/-- Association-list model of the JavaScript Map used by adjudicateFindings:
set on a fresh key appends, set on a present key updates in place, and the
values iterate in key-insertion order. -/
def mapSet (m : List (String × ReviewFinding)) (k : String) (v : ReviewFinding) :
    List (String × ReviewFinding) :=
  match m with
  | [] => [(k, v)]
  | (k2, v2) :: rest => if k2 = k then (k, v) :: rest else (k2, v2) :: mapSet rest k v

/-- Lookup in the association-list map. -/
def mapGet (m : List (String × ReviewFinding)) (k : String) : Option ReviewFinding :=
  match m with
  | [] => none
  | (k2, v2) :: rest => if k2 = k then some v2 else mapGet rest k

/-- The provider merge of adjudicateFindings: deduplicate the concatenation
(a JavaScript Set keeps first occurrences) and sort it with the default
string sort. -/
def mergeProviders (a b : List String) : List String :=
  List.insertionSort (fun x y : String => x ≤ y) (a ++ b).eraseDups

/-- One step of the merge loop of adjudicateFindings: insert a finding into
the map, either as a fresh entry (the source copies the providers array,
which is the identity on the value level) or merged with the existing entry
of the same duplicate key, keeping the strictly-higher-priority variant
(ties keep the existing entry), merging the provider sets, and keeping the
first non-null fingerprint. -/
def adjInsert (m : List (String × ReviewFinding)) (finding : ReviewFinding) :
    List (String × ReviewFinding) :=
  let key := buildDuplicateKey finding
  match mapGet m key with
  | none => mapSet m key { finding with providers := finding.providers }
  | some existing =>
    let winner := if findingPriority existing < findingPriority finding then finding
      else existing
    mapSet m key { winner with
      providers := mergeProviders existing.providers finding.providers,
      fingerprint := existing.fingerprint.orElse (fun _ => finding.fingerprint) }

/-- The three-way comparison of the default-locale localeCompare used by the
final sort of adjudicateFindings, modelled as code-point string order. -/
def strCmp (a b : String) : Int :=
  if a < b then -1 else if b < a then 1 else 0

/-- The comparator of the final sort of adjudicateFindings: severity
descending, confidence descending, file ascending, then line ascending. -/
def adjCmp (a b : ReviewFinding) : Int :=
  let severityDelta := severityRank b.severity - severityRank a.severity
  if severityDelta ≠ 0 then severityDelta
  else
    let confidenceDelta := confidenceRank b.confidence - confidenceRank a.confidence
    if confidenceDelta ≠ 0 then confidenceDelta
    else if a.file ≠ b.file then strCmp a.file b.file
    else a.line - b.line

/-- The sort order induced by the comparator: a precedes b when the
comparator is non-positive.  The JavaScript sort is stable, so insertion
sort over this relation denotes it. -/
def adjLE (a b : ReviewFinding) : Prop := adjCmp a b ≤ 0

instance : DecidableRel adjLE := fun a b => inferInstanceAs (Decidable (adjCmp a b ≤ 0))

/-- adjudicateFindings of remediation-loop.ts: merge duplicates through the
insertion-ordered map, then stable-sort the merged values with the
comparator. -/
def adjudicateFindings (findings : List ReviewFinding) : List ReviewFinding :=
  let merged := findings.foldl adjInsert []
  List.insertionSort adjLE (merged.map Prod.snd)

/-- filterCurrentFindings of remediation-loop.ts: drop informational
findings, drop stale findings when skipStaleComments is set, then
adjudicate. -/
def filterCurrentFindings (findings : List ReviewFinding) (currentHeadSha : String)
    (config : RemediationConfig) : List ReviewFinding :=
  let withoutInformational := findings.filter (fun f => f.severity ≠ FindingSeverity.info)
  let freshFindings := if config.skipStaleComments then
      withoutInformational.filter (fun f => f.headSha = currentHeadSha)
    else withoutInformational
  adjudicateFindings freshFindings

/-! ## Remediation loop (remediation-loop.ts, runRemediationLoop)

The injected applyFix callback is a function from a finding to an Except
carrying either the returned boolean or the message of a thrown error; the
injected validate callback likewise.  The loop is embedded together with an
explicit trace of the findings passed to applyFix, so that which findings
were attempted is part of the denoted value; the result component is the
RemediationResult the source returns. -/

/-- The body of one attempt of the remediation loop after the attempted
counter was incremented: apply the fix, validate on success, and append the
corresponding error message on any failure or thrown error. -/
def applyOutcome (applyFix : ReviewFinding → Except String Bool)
    (validate : Except String Bool) (f : ReviewFinding) (res : RemediationResult) :
    RemediationResult :=
  match applyFix f with
  | Except.ok true =>
    match validate with
    | Except.ok true => { res with succeeded := res.succeeded + 1 }
    | Except.ok false =>
      { res with errors := res.errors ++
        ["Fix for " ++ f.file ++ ":" ++ toString f.line ++ " failed validation"] }
    | Except.error msg =>
      { res with errors := res.errors ++
        ["Error fixing " ++ f.file ++ ":" ++ toString f.line ++ ": " ++ msg] }
  | Except.ok false =>
    { res with errors := res.errors ++
      ["Could not apply fix for " ++ f.file ++ ":" ++ toString f.line] }
  | Except.error msg =>
    { res with errors := res.errors ++
      ["Error fixing " ++ f.file ++ ":" ++ toString f.line ++ ": " ++ msg] }

/-- The for loop of runRemediationLoop over the actionable findings,
with the trace of findings passed to applyFix as second component.  Once the
attempted counter reaches maxAttempts the loop records the max-attempts
error and stops. -/
def remLoop (applyFix : ReviewFinding → Except String Bool)
    (validate : Except String Bool) (maxAttempts : Nat) :
    List ReviewFinding → RemediationResult → RemediationResult × List ReviewFinding
  | [], res => (res, [])
  | f :: rest, res =>
    if maxAttempts ≤ res.attempted then
      ({ res with errors := res.errors ++
        ["Reached max remediation attempts (" ++ toString maxAttempts ++ ")"] }, [])
    else
      let res1 := { res with attempted := res.attempted + 1 }
      let res2 := applyOutcome applyFix validate f res1
      let next := remLoop applyFix validate maxAttempts rest res2
      (next.1, f :: next.2)

/-- The argument record of runRemediationLoop. -/
structure RemediationOpts where
  findings : List ReviewFinding
  currentHeadSha : String
  config : RemediationConfig
  applyFix : ReviewFinding → Except String Bool
  validate : Except String Bool

/-- runRemediationLoop of remediation-loop.ts together with the trace of the
findings passed to applyFix: filter and adjudicate the findings, initialise
the result with skipped set to the number of findings dropped by that
filtering, and run the bounded loop. -/
def runRemediationLoopWithTrace (o : RemediationOpts) :
    RemediationResult × List ReviewFinding :=
  let actionable := filterCurrentFindings o.findings o.currentHeadSha o.config
  remLoop o.applyFix o.validate o.config.maxAttempts actionable
    { attempted := 0, succeeded := 0,
      skipped := o.findings.length - actionable.length, errors := [] }

/-- The RemediationResult returned by runRemediationLoop. -/
def runRemediationLoop (o : RemediationOpts) : RemediationResult :=
  (runRemediationLoopWithTrace o).1

/-! ## Sample values used to instantiate theorems on concrete inputs -/

/-- A minimal merge-policy entry. -/
def sampleMergePolicy : MergePolicyEntry :=
  { requiredChecks := ["build"], requireCodeReviewAgent := false,
    requireBrowserEvidence := false }

/-- A minimal well-formed contract with empty pattern lists. -/
def sampleContract : RiskPolicyContract :=
  { version := "1", riskTierRulesHigh := [], riskTierRulesLow := ["**"],
    mergePolicyHigh := sampleMergePolicy, mergePolicyLow := sampleMergePolicy,
    docsDriftRules := { controlPlanePaths := [], requiredDocPaths := [],
                        coverageByPathClass := none },
    browserEvidence := { requiredFlows := [], requiredFields := [], maxAgeDays := 7 },
    reviewAgent := { name := "review-agent", rerunWorkflow := "rerun",
                     autoResolveWorkflow := "resolve", timeoutMinutes := 30 },
    remediationAgent := { name := "remediator", enabled := true, pinModel := true,
                          skipStaleComments := true },
    harnessGapLoop := { enabled := false, issueLabel := "gap", slaTracking := false } }

/-- The contract with one control-plane pattern and one documentation
pattern. -/
def driftContract : RiskPolicyContract :=
  { sampleContract with
    docsDriftRules := { controlPlanePaths := ["risk-policy.contract.json"],
                        requiredDocPaths := ["docs/**"],
                        coverageByPathClass := none } }

/-- The assessment produced for an empty change set under the minimal
contract. -/
def sampleAssessment : RiskAssessment :=
  { tier := RiskTier.low, score := 0, threshold := 60, changedFiles := [],
    explanation := { triggeredSignals := [], scoreBreakdown := [] } }

/-- A review state reporting success for revision sha1. -/
def sampleReviewState : ReviewState :=
  { headSha := "sha1", status := ReviewStatus.success, hasActionableFindings := false }

/-- A clock advancing 100000 ms per loop iteration. -/
def sampleClock : Nat → Int := fun k => 100000 * k

/-- A poll function that always reports the successful review state. -/
def samplePoll : Nat → Option ReviewState := fun _ => some sampleReviewState

/-- A baseline review finding for concrete instantiations. -/
def sampleFinding : ReviewFinding :=
  { providers := ["alpha"], file := "a.ts", line := 1, message := "m",
    severity := FindingSeverity.medium, confidence := FindingConfidence.medium,
    category := FindingCategory.other, headSha := "sha", fingerprint := none }

/-- A low-priority finding whose fingerprint is present but empty; the key
builder treats it as absent and derives the key a:1:other:x. -/
def cf1 : ReviewFinding :=
  { providers := ["p1"], file := "a", line := 1, message := "x",
    severity := FindingSeverity.low, confidence := FindingConfidence.low,
    category := FindingCategory.other, headSha := "sha", fingerprint := some "" }

/-- A critical finding whose explicit fingerprint equals the derived key of
cf1, so the two findings share a duplicate key. -/
def cf2 : ReviewFinding :=
  { providers := ["p2"], file := "b", line := 2, message := "y",
    severity := FindingSeverity.critical, confidence := FindingConfidence.high,
    category := FindingCategory.other, headSha := "sha",
    fingerprint := some "a:1:other:x" }

/-- A medium finding whose derived key b:2:other:y collides with the
re-derived key of the merge of cf1 and cf2. -/
def cf3 : ReviewFinding :=
  { providers := ["p3"], file := "b", line := 2, message := "y",
    severity := FindingSeverity.medium, confidence := FindingConfidence.medium,
    category := FindingCategory.other, headSha := "sha", fingerprint := none }

/-- The earlier of two equal-priority findings sharing a fingerprint. -/
def tf1 : ReviewFinding :=
  { providers := ["p1"], file := "a", line := 1, message := "first",
    severity := FindingSeverity.high, confidence := FindingConfidence.high,
    category := FindingCategory.other, headSha := "sha", fingerprint := some "dup" }

/-- The later of two equal-priority findings sharing a fingerprint, with a
different message than the earlier one. -/
def tf2 : ReviewFinding :=
  { providers := ["p2"], file := "a", line := 1, message := "second",
    severity := FindingSeverity.high, confidence := FindingConfidence.high,
    category := FindingCategory.other, headSha := "sha", fingerprint := some "dup" }

/-- A high-priority current finding. -/
def gf1 : ReviewFinding :=
  { providers := ["p1"], file := "a", line := 1, message := "one",
    severity := FindingSeverity.high, confidence := FindingConfidence.high,
    category := FindingCategory.security, headSha := "sha", fingerprint := none }

/-- A medium-priority current finding. -/
def gf2 : ReviewFinding :=
  { providers := ["p2"], file := "b", line := 2, message := "two",
    severity := FindingSeverity.medium, confidence := FindingConfidence.medium,
    category := FindingCategory.style, headSha := "sha", fingerprint := none }

/-- A low-priority current finding. -/
def gf3 : ReviewFinding :=
  { providers := ["p3"], file := "c", line := 3, message := "three",
    severity := FindingSeverity.low, confidence := FindingConfidence.low,
    category := FindingCategory.other, headSha := "sha", fingerprint := none }

/-- A remediation invocation with three actionable findings, an attempt
bound of one, and injected callbacks that always succeed. -/
def gOpts : RemediationOpts :=
  { findings := [gf1, gf2, gf3], currentHeadSha := "sha",
    config := { pinModel := true, skipStaleComments := true, maxAttempts := 1 },
    applyFix := fun _ => Except.ok true, validate := Except.ok true }

/-! ## General helper lemmas -/

/-- Inversion of a successful Except bind. -/
theorem except_bind_ok {ε α β : Type} {x : Except ε α} {f : α → Except ε β} {b : β}
    (h : x >>= f = Except.ok b) : ∃ a, x = Except.ok a ∧ f a = Except.ok b := by
  cases x with
  | error e => simp [Bind.bind, Except.bind] at h
  | ok a => exact ⟨a, rfl, by simpa [Bind.bind, Except.bind] using h⟩

/-- The weight fold of buildAssessment is the sum of the mapped weights. -/
theorem foldl_weight (l : List RiskExplanationSignal) (n : Int) :
    l.foldl (fun total s => total + s.weight) n = n + (l.map (fun s => s.weight)).sum := by
  induction l generalizing n with
  | nil => simp
  | cons s rest ih => simp [ih, add_assoc]

/-- Projection lemma: the triggered signals of a built assessment. -/
theorem buildAssessment_signals (files : List String) (sigs : List RiskExplanationSignal) :
    (buildAssessment files sigs).explanation.triggeredSignals = sigs := rfl

/-- Projection lemma: the threshold of a built assessment. -/
theorem buildAssessment_threshold (files : List String) (sigs : List RiskExplanationSignal) :
    (buildAssessment files sigs).threshold = 60 := rfl

/-- The score of a built assessment is the sum of the signal weights. -/
theorem buildAssessment_score (files : List String) (sigs : List RiskExplanationSignal) :
    (buildAssessment files sigs).score = (sigs.map (fun s => s.weight)).sum := by
  show sigs.foldl (fun total s => total + s.weight) 0 = _
  rw [foldl_weight, zero_add]

/-- The tier of a built assessment is high exactly when the score reaches
the threshold. -/
theorem buildAssessment_tier (files : List String) (sigs : List RiskExplanationSignal) :
    (buildAssessment files sigs).tier = RiskTier.high ↔
      60 ≤ (buildAssessment files sigs).score := by
  have hdef : (buildAssessment files sigs).tier =
      if HIGH_RISK_THRESHOLD ≤ (buildAssessment files sigs).score then RiskTier.high
      else RiskTier.low := rfl
  rw [hdef]
  by_cases h60 : HIGH_RISK_THRESHOLD ≤ (buildAssessment files sigs).score
  · rw [if_pos h60]
    exact iff_of_true rfl h60
  · rw [if_neg h60]
    exact iff_of_false (by simp) h60

/-- Sorting is invariant under permutation of the input list, since the
sorted rearrangement over a linear order is unique. -/
theorem sortFiles_eq_of_perm {l₁ l₂ : List String} (h : l₁.Perm l₂) :
    sortFiles l₁ = sortFiles l₂ :=
  List.eq_of_perm_of_sorted
    ((List.perm_insertionSort _ l₁).trans (h.trans (List.perm_insertionSort _ l₂).symm))
    (List.sorted_insertionSort _ l₁) (List.sorted_insertionSort _ l₂)

/-! ## Claim C1 -/

/-- Claim C1: for every changed-file list, contract and historical metadata,
an assessment returned by computeRiskAssessment has score equal to the sum of
the weights of the emitted signals, threshold 60, and tier high exactly when
the score is at least 60. -/
theorem computeRiskAssessment_score_tier (changedFiles : List String)
    (contract : RiskPolicyContract) (historicalMetadata : HistoricalRiskMetadata)
    (a : RiskAssessment)
    (h : computeRiskAssessment changedFiles contract historicalMetadata = Except.ok a) :
    a.score = (a.explanation.triggeredSignals.map (fun s => s.weight)).sum ∧
      a.threshold = 60 ∧ (a.tier = RiskTier.high ↔ 60 ≤ a.score) := by
  simp only [computeRiskAssessment] at h
  obtain ⟨sigs, hc, hp⟩ := except_bind_ok h
  have ha : a = buildAssessment (sortFiles changedFiles) sigs := by
    simpa [pure, Except.pure, eq_comm] using hp
  subst ha
  refine ⟨?_, buildAssessment_threshold _ _, buildAssessment_tier _ _⟩
  rw [buildAssessment_score, buildAssessment_signals]

/-- Claim C1 witness: the empty change set under the minimal contract. -/
theorem computeRiskAssessment_score_tier_witness :
    sampleAssessment.score =
        (sampleAssessment.explanation.triggeredSignals.map (fun s => s.weight)).sum ∧
      sampleAssessment.threshold = 60 ∧
      (sampleAssessment.tier = RiskTier.high ↔ 60 ≤ sampleAssessment.score) :=
  computeRiskAssessment_score_tier [] sampleContract EMPTY_HISTORICAL_METADATA
    sampleAssessment (by rfl)

/-! ## Claim C2 -/

/-- Claim C2: computeRiskAssessment returns an identical assessment for any
permutation of the changed-file list (same tier, score, threshold, sorted
changed files, triggered signals in the same order, and breakdown lines),
including identical propagation of pattern-compilation errors. -/
theorem computeRiskAssessment_perm (l₁ l₂ : List String) (contract : RiskPolicyContract)
    (historicalMetadata : HistoricalRiskMetadata) (h : l₁.Perm l₂) :
    computeRiskAssessment l₁ contract historicalMetadata =
      computeRiskAssessment l₂ contract historicalMetadata := by
  simp only [computeRiskAssessment]
  rw [sortFiles_eq_of_perm h]

/-- Claim C2 witness: a two-element change set and its reversal. -/
theorem computeRiskAssessment_perm_witness :
    computeRiskAssessment ["b.ts", "a.ts"] sampleContract EMPTY_HISTORICAL_METADATA =
      computeRiskAssessment ["a.ts", "b.ts"] sampleContract EMPTY_HISTORICAL_METADATA :=
  computeRiskAssessment_perm ["b.ts", "a.ts"] ["a.ts", "b.ts"] sampleContract
    EMPTY_HISTORICAL_METADATA (by decide)

/-! ## Claim C4 -/

/-- A pattern free of stars, of question marks, and of any occurrence of the
literal placeholder text compiles to the list of its characters as literals:
every regex metacharacter was escaped. -/
theorem globScan_lits (cs : List Char) :
    ∀ (prev : PrevKind) (acc : List GTok),
    (∀ c ∈ cs, c ≠ '*' ∧ c ≠ '?') →
    ¬(globstarPlaceholder <:+: cs) →
    globScan cs prev acc = some (acc.reverse ++ cs.map GTok.lit) := by
  induction cs with
  | nil => intro prev acc _ _; simp [globScan]
  | cons c cs ih =>
    intro prev acc h hinf
    have hc := h c (List.mem_cons_self _ _)
    have hnp : ¬((c :: cs).take 12 = globstarPlaceholder) := by
      intro heq
      exact hinf (heq ▸ (List.take_prefix 12 (c :: cs)).isInfix)
    rw [globScan.eq_def]
    simp only [if_neg hnp, if_neg hc.1, if_neg hc.2]
    rw [ih PrevKind.atom (GTok.lit c :: acc) (fun d hd => h d (List.mem_cons_of_mem _ hd))
      (fun hi => hinf (List.infix_cons hi))]
    simp [List.reverse_cons, List.append_assoc]

/-- A list of literal tokens matches exactly the identical character list:
literals match only themselves and the anchors force full consumption. -/
theorem gtokMatch_lits (l : List Char) :
    ∀ s : List Char, gtokMatch (l.map GTok.lit) s = true ↔ s = l := by
  induction l with
  | nil =>
    intro s
    cases s <;> simp [gtokMatch]
  | cons c l ih =>
    intro s
    cases s with
    | nil => simp [gtokMatch]
    | cons d ds =>
      simp only [List.map_cons, gtokMatch, Bool.and_eq_true, beq_iff_eq, ih, List.cons.injEq]
      constructor
      · rintro ⟨h1, h2⟩
        exact ⟨h1.symm, h2⟩
      · rintro ⟨h1, h2⟩
        exact ⟨h1.symm, h2⟩

/-- Claim C4 (amended): globToRegExp escapes the metacharacters of its escape
class (which omits the question mark) and anchors the compiled expression, so
every pattern containing no star, no question mark and no occurrence of the
literal placeholder text matches the identical path and nothing else. -/
theorem globMatch_literal_anchored (pattern path : String)
    (h : ∀ c ∈ pattern.toList, c ≠ '*' ∧ c ≠ '?')
    (hplace : ¬(globstarPlaceholder <:+: pattern.toList)) :
    matchesAny path [pattern] = Except.ok (decide (path = pattern)) := by
  have hscan : globToRegExp pattern = some (pattern.toList.map GTok.lit) := by
    simpa [globToRegExp] using globScan_lits pattern.toList PrevKind.start [] h hplace
  simp only [matchesAny, hscan]
  by_cases hp : path.toList = pattern.toList
  · have hps : path = pattern := String.toList_inj.mp hp
    rw [if_pos ((gtokMatch_lits pattern.toList path.toList).mpr hp)]
    simp [hps]
  · have hps : path ≠ pattern := fun hh => hp (by rw [hh])
    have hm : ¬(gtokMatch (pattern.toList.map GTok.lit) path.toList = true) := by
      rw [gtokMatch_lits]
      exact hp
    rw [if_neg hm]
    simp [hps, matchesAny]

/-- Claim C4 counterexample: in the pattern of an a followed by a question
mark, the question mark is not matched literally; the compiled expression
instead treats it as a quantifier making the a optional, so the pattern does
not match itself but does match the empty path. -/
theorem globToRegExp_question_counterexample :
    matchesAny "a?" ["a?"] = Except.ok false ∧
      matchesAny "" ["a?"] = Except.ok true := by
  constructor <;>
    simp [matchesAny, globToRegExp, globScan, gtokMatch, globstarPlaceholder]

/-- Claim C4 witness: the escaped dot in a pattern that also contains an
opening angle bracket matches only itself, and matching is anchored. -/
theorem globMatch_literal_anchored_witness :
    matchesAny "axb<c" ["a.b<c"] = Except.ok (decide (("axb<c" : String) = "a.b<c")) :=
  globMatch_literal_anchored "a.b<c" "axb<c" (by decide) (by decide)

/-! ## Claim C7 -/

/-- Claim C7: whenever the manifest headSha differs from the current
revision, validateBrowserEvidence fails with the stale-mismatch error,
whatever the manifest entries, the contract requirements and the evaluation
time. -/
theorem validateBrowserEvidence_stale (manifest : BrowserEvidenceManifest)
    (contract : RiskPolicyContract) (currentHeadSha : String) (now : Int)
    (h : manifest.headSha ≠ currentHeadSha) :
    validateBrowserEvidence manifest contract currentHeadSha now =
      Except.error ("Browser evidence SHA mismatch: expected " ++ currentHeadSha ++
        ", got " ++ manifest.headSha) := by
  simp only [validateBrowserEvidence, if_pos h]

/-- Claim C7 witness: a manifest for another revision with content that would
otherwise pass. -/
theorem validateBrowserEvidence_stale_witness :
    validateBrowserEvidence { headSha := "old", entries := [] } sampleContract "new" 0 =
      Except.error "Browser evidence SHA mismatch: expected new, got old" :=
  validateBrowserEvidence_stale { headSha := "old", entries := [] } sampleContract "new" 0
    (by decide)

/-! ## Claim C8 -/

/-- Claim C8: when the matcher evaluations succeed, assertDocsDriftRules
throws the drift error naming the required documentation patterns exactly
when some changed file matches a control-plane pattern and none matches a
required documentation pattern, and succeeds whenever no changed file
matches a control-plane pattern, regardless of documentation changes. -/
theorem assertDocsDriftRules_spec (changedFiles : List String)
    (contract : RiskPolicyContract) (b₁ b₂ : Bool)
    (h₁ : someFileMatches changedFiles contract.docsDriftRules.controlPlanePaths =
      Except.ok b₁)
    (h₂ : someFileMatches changedFiles contract.docsDriftRules.requiredDocPaths =
      Except.ok b₂) :
    (assertDocsDriftRules changedFiles contract =
        Except.error (DriftFailure.drift
          (driftErrorMessage contract.docsDriftRules.requiredDocPaths)) ↔
      (b₁ = true ∧ b₂ = false)) ∧
    (b₁ = false → assertDocsDriftRules changedFiles contract = Except.ok ()) := by
  simp only [assertDocsDriftRules, h₁, h₂]
  cases b₁ <;> cases b₂ <;> simp

/-- Claim C8 witness: touching only the contract file under a contract that
declares it control-plane and requires documentation fails with the drift
error naming the documentation pattern. -/
theorem assertDocsDriftRules_spec_witness :
    (assertDocsDriftRules ["risk-policy.contract.json"] driftContract =
        Except.error (DriftFailure.drift
          (driftErrorMessage driftContract.docsDriftRules.requiredDocPaths)) ↔
      (true = true ∧ false = false)) ∧
    (true = false → assertDocsDriftRules ["risk-policy.contract.json"] driftContract =
      Except.ok ()) :=
  assertDocsDriftRules_spec ["risk-policy.contract.json"] driftContract true false
    (by simp [someFileMatches, driftContract, sampleContract, matchesAny, globToRegExp,
      globScan, gtokMatch, globstarPlaceholder, Bind.bind, Except.bind, pure, Except.pure])
    (by simp [someFileMatches, driftContract, sampleContract, matchesAny, globToRegExp,
      globScan, gtokMatch, globstarPlaceholder, Bind.bind, Except.bind, pure, Except.pure])

/-! ## Claim C9 -/

/-- Behaviour of the polling loop from iteration k: provided the clock
reaches the deadline within the fuel window, the loop terminates, never
returns a pending state, and either returns the first non-pending non-null
poll result observed before the deadline, or fails with the timeout error at
the first iteration whose clock reading has reached the deadline, every
earlier poll having yielded pending or null. -/
theorem waitLoop_spec (deadline tm : Int) (sha : String) (clock : Nat → Int)
    (poll : Nat → Option ReviewState) :
    ∀ (fuel k : Nat), (∃ m, m < fuel ∧ deadline ≤ clock (k + m)) →
    ∃ r, waitLoop deadline tm sha clock poll fuel k = some r ∧
      (∀ s, r = Except.ok s → s.status ≠ ReviewStatus.pending) ∧
      ((∃ j s, k ≤ j ∧ poll j = some s ∧ s.status ≠ ReviewStatus.pending ∧
          clock j < deadline ∧ r = Except.ok s ∧
          ∀ i, k ≤ i → i < j → clock i < deadline ∧
            ∀ s2, poll i = some s2 → s2.status = ReviewStatus.pending) ∨
        (r = Except.error (reviewTimeoutMessage tm sha) ∧
          ∃ j, k ≤ j ∧ ¬(clock j < deadline) ∧
            ∀ i, k ≤ i → i < j → clock i < deadline ∧
              ∀ s2, poll i = some s2 → s2.status = ReviewStatus.pending)) := by
  intro fuel
  induction fuel with
  | zero =>
    intro k h
    obtain ⟨m, hm, _⟩ := h
    omega
  | succ fuel ih =>
    intro k h
    obtain ⟨m, hm, hd⟩ := h
    by_cases hcl : clock k < deadline
    · cases hpoll : poll k with
      | some s =>
        by_cases hs : s.status = ReviewStatus.pending
        · have hm0 : m ≠ 0 := by
            intro hm0
            rw [hm0, Nat.add_zero] at hd
            omega
          obtain ⟨r, hw, hok, hcase⟩ := ih (k + 1)
            ⟨m - 1, by omega, by
              have : k + 1 + (m - 1) = k + m := by omega
              rw [this]
              exact hd⟩
          refine ⟨r, ?_, hok, ?_⟩
          · rw [waitLoop, if_pos hcl, hpoll]
            simp only [hs, ne_eq, not_true_eq_false, if_neg]
            exact hw
          · rcases hcase with ⟨j, s2, hkj, hp, hst, hcj, hr, hearlier⟩ |
              ⟨hr, j, hkj, hjcl, hearlier⟩
            · refine Or.inl ⟨j, s2, by omega, hp, hst, hcj, hr, ?_⟩
              intro i hki hij
              by_cases hik : i = k
              · subst hik
                refine ⟨hcl, ?_⟩
                intro s3 hs3
                rw [hpoll] at hs3
                cases hs3
                exact hs
              · exact hearlier i (by omega) hij
            · refine Or.inr ⟨hr, j, by omega, hjcl, ?_⟩
              intro i hki hij
              by_cases hik : i = k
              · subst hik
                refine ⟨hcl, ?_⟩
                intro s3 hs3
                rw [hpoll] at hs3
                cases hs3
                exact hs
              · exact hearlier i (by omega) hij
        · refine ⟨Except.ok s, ?_, ?_, ?_⟩
          · rw [waitLoop, if_pos hcl, hpoll]
            simp [hs]
          · intro s2 hs2
            cases hs2
            exact hs
          · exact Or.inl ⟨k, s, Nat.le_refl _, hpoll, hs, hcl, rfl, by omega⟩
      | none =>
        have hm0 : m ≠ 0 := by
          intro hm0
          rw [hm0, Nat.add_zero] at hd
          omega
        obtain ⟨r, hw, hok, hcase⟩ := ih (k + 1)
          ⟨m - 1, by omega, by
            have : k + 1 + (m - 1) = k + m := by omega
            rw [this]
            exact hd⟩
        refine ⟨r, ?_, hok, ?_⟩
        · rw [waitLoop, if_pos hcl, hpoll]
          exact hw
        · rcases hcase with ⟨j, s2, hkj, hp, hst, hcj, hr, hearlier⟩ |
            ⟨hr, j, hkj, hjcl, hearlier⟩
          · refine Or.inl ⟨j, s2, by omega, hp, hst, hcj, hr, ?_⟩
            intro i hki hij
            by_cases hik : i = k
            · subst hik
              refine ⟨hcl, ?_⟩
              intro s3 hs3
              rw [hpoll] at hs3
              cases hs3
            · exact hearlier i (by omega) hij
          · refine Or.inr ⟨hr, j, by omega, hjcl, ?_⟩
            intro i hki hij
            by_cases hik : i = k
            · subst hik
              refine ⟨hcl, ?_⟩
              intro s3 hs3
              rw [hpoll] at hs3
              cases hs3
            · exact hearlier i (by omega) hij
    · refine ⟨Except.error (reviewTimeoutMessage tm sha), ?_, ?_,
        Or.inr ⟨rfl, k, Nat.le_refl _, hcl, ?_⟩⟩
      · rw [waitLoop, if_neg hcl]
      · intro s hs
        cases hs
      · intro i hki hik
        exact absurd hik (by omega)

/-- Claim C9: waitForReviewCompletion repeatedly invokes the injected poll
function until it yields a non-pending review state, which it returns, or
until the hard deadline derived from timeoutMinutes elapses, in which case it
fails with the timeout error after every poll made before the deadline
yielded pending or null; it never returns a pending state.  The hypothesis
states that the wall clock reaches the deadline by iteration n, which the
sleeping loop guarantees in real time. -/
theorem waitForReviewCompletion_spec (headSha : String) (tm interval start : Int)
    (clock : Nat → Int) (poll : Nat → Option ReviewState) (n : Nat)
    (hn : start + tm * 60000 ≤ clock n) :
    ∃ r, waitForReviewCompletion (n + 1) headSha tm interval start clock poll = some r ∧
      (∀ s, r = Except.ok s → s.status ≠ ReviewStatus.pending) ∧
      ((∃ j s, poll j = some s ∧ s.status ≠ ReviewStatus.pending ∧
          clock j < start + tm * 60000 ∧ r = Except.ok s ∧
          ∀ i, i < j → clock i < start + tm * 60000 ∧
            ∀ s2, poll i = some s2 → s2.status = ReviewStatus.pending) ∨
        (r = Except.error (reviewTimeoutMessage tm headSha) ∧
          ∃ j, ¬(clock j < start + tm * 60000) ∧
            ∀ i, i < j → clock i < start + tm * 60000 ∧
              ∀ s2, poll i = some s2 → s2.status = ReviewStatus.pending)) := by
  obtain ⟨r, hw, hok, hcase⟩ := waitLoop_spec (start + tm * 60000) tm headSha clock poll
    (n + 1) 0 ⟨n, Nat.lt_succ_self n, by simpa using hn⟩
  refine ⟨r, hw, hok, ?_⟩
  rcases hcase with ⟨j, s, _, hp, hst, hcj, hr, hearlier⟩ | ⟨hr, j, _, hjcl, hearlier⟩
  · exact Or.inl ⟨j, s, hp, hst, hcj, hr, fun i hij => hearlier i (Nat.zero_le i) hij⟩
  · exact Or.inr ⟨hr, j, hjcl, fun i hij => hearlier i (Nat.zero_le i) hij⟩

/-- Claim C9 witness: a poll function that immediately reports success under
a clock that passes the one-minute deadline at the second reading. -/
theorem waitForReviewCompletion_spec_witness :
    ∃ r, waitForReviewCompletion 2 "sha1" 1 15000 0 sampleClock samplePoll = some r ∧
      (∀ s, r = Except.ok s → s.status ≠ ReviewStatus.pending) ∧
      ((∃ j s, samplePoll j = some s ∧ s.status ≠ ReviewStatus.pending ∧
          sampleClock j < 0 + 1 * 60000 ∧ r = Except.ok s ∧
          ∀ i, i < j → sampleClock i < 0 + 1 * 60000 ∧
            ∀ s2, samplePoll i = some s2 → s2.status = ReviewStatus.pending) ∨
        (r = Except.error (reviewTimeoutMessage 1 "sha1") ∧
          ∃ j, ¬(sampleClock j < 0 + 1 * 60000) ∧
            ∀ i, i < j → sampleClock i < 0 + 1 * 60000 ∧
              ∀ s2, samplePoll i = some s2 → s2.status = ReviewStatus.pending)) :=
  waitForReviewCompletion_spec "sha1" 1 15000 0 sampleClock samplePoll 1
    (by norm_num [sampleClock])

/-! ## Claim C10 -/

/-- An attempt body changes neither the attempted counter nor the skipped
counter, and only appends to the error list. -/
theorem applyOutcome_counters (applyFix : ReviewFinding → Except String Bool)
    (validate : Except String Bool) (f : ReviewFinding) (res : RemediationResult) :
    (applyOutcome applyFix validate f res).attempted = res.attempted ∧
    (applyOutcome applyFix validate f res).skipped = res.skipped ∧
    ∃ es, (applyOutcome applyFix validate f res).errors = res.errors ++ es := by
  unfold applyOutcome
  cases hx : applyFix f with
  | error m => exact ⟨rfl, rfl, [_], rfl⟩
  | ok b =>
    cases b with
    | false => exact ⟨rfl, rfl, [_], rfl⟩
    | true =>
      cases hv : validate with
      | error m2 => exact ⟨rfl, rfl, [_], rfl⟩
      | ok b2 =>
        cases b2 with
        | false => exact ⟨rfl, rfl, [_], rfl⟩
        | true => exact ⟨rfl, rfl, [], (List.append_nil _).symm⟩

/-- The remediation loop never changes the skipped counter. -/
theorem remLoop_skipped (applyFix : ReviewFinding → Except String Bool)
    (validate : Except String Bool) (maxAttempts : Nat) :
    ∀ (l : List ReviewFinding) (res : RemediationResult),
    ((remLoop applyFix validate maxAttempts l res).1).skipped = res.skipped := by
  intro l
  induction l with
  | nil => intro res; rfl
  | cons f rest ih =>
    intro res
    rw [remLoop]
    by_cases hmax : maxAttempts ≤ res.attempted
    · rw [if_pos hmax]
    · rw [if_neg hmax]
      simp only []
      rw [ih]
      exact (applyOutcome_counters applyFix validate f _).2.1

/-- A map never grows by more than one entry per set. -/
theorem mapSet_length_le (m : List (String × ReviewFinding)) (k : String)
    (v : ReviewFinding) : (mapSet m k v).length ≤ m.length + 1 := by
  induction m with
  | nil => simp [mapSet]
  | cons p rest ih =>
    rw [mapSet]
    by_cases hk : p.1 = k
    · simp only [hk, if_pos rfl]
      simp
    · rw [if_neg hk]
      simp only [List.length_cons]
      omega

/-- Inserting a finding grows the map by at most one entry. -/
theorem adjInsert_length_le (m : List (String × ReviewFinding)) (f : ReviewFinding) :
    (adjInsert m f).length ≤ m.length + 1 := by
  cases h : mapGet m (buildDuplicateKey f) with
  | none =>
    simp only [adjInsert, h]
    exact mapSet_length_le _ _ _
  | some existing =>
    simp only [adjInsert, h]
    exact mapSet_length_le _ _ _

/-- The merge fold produces at most one entry per input finding. -/
theorem foldl_adjInsert_length_le (l : List ReviewFinding) :
    ∀ m : List (String × ReviewFinding),
    (List.foldl adjInsert m l).length ≤ m.length + l.length := by
  induction l with
  | nil => intro m; simp
  | cons f rest ih =>
    intro m
    have h1 := ih (adjInsert m f)
    have h2 := adjInsert_length_le m f
    simp only [List.foldl_cons, List.length_cons]
    omega

/-- Adjudication never produces more findings than it consumes. -/
theorem adjudicateFindings_length_le (l : List ReviewFinding) :
    (adjudicateFindings l).length ≤ l.length := by
  unfold adjudicateFindings
  have hsort := (List.perm_insertionSort adjLE ((l.foldl adjInsert []).map Prod.snd)).length_eq
  rw [hsort, List.length_map]
  simpa using foldl_adjInsert_length_le l []

/-- Filtering and adjudication never produce more findings than the input. -/
theorem filterCurrentFindings_length_le (findings : List ReviewFinding)
    (currentHeadSha : String) (config : RemediationConfig) :
    (filterCurrentFindings findings currentHeadSha config).length ≤ findings.length := by
  simp only [filterCurrentFindings]
  by_cases hskip : config.skipStaleComments = true
  · rw [if_pos hskip]
    calc (adjudicateFindings _).length
        ≤ _ := adjudicateFindings_length_le _
      _ ≤ ((findings.filter (fun f => decide (f.severity ≠ FindingSeverity.info)))).length :=
          List.length_filter_le _ _
      _ ≤ findings.length := List.length_filter_le _ _
  · rw [if_neg hskip]
    calc (adjudicateFindings _).length
        ≤ _ := adjudicateFindings_length_le _
      _ ≤ findings.length := List.length_filter_le _ _

/-- Claim C10: the skipped count of every remediation result equals the
number of input findings minus the number of findings remaining after
filtering and adjudication (which never exceeds the input count), so
informational, stale and duplicate-merged findings count as skipped while
actionable findings left unprocessed by the attempt bound do not. -/
theorem runRemediationLoop_skipped (o : RemediationOpts) :
    (runRemediationLoop o).skipped =
        o.findings.length -
          (filterCurrentFindings o.findings o.currentHeadSha o.config).length ∧
      (filterCurrentFindings o.findings o.currentHeadSha o.config).length ≤
        o.findings.length := by
  constructor
  · unfold runRemediationLoop runRemediationLoopWithTrace
    rw [remLoop_skipped]
  · exact filterCurrentFindings_length_le _ _ _

/-! ## The adjudication sort order -/

/-- The comparator order unfolded: severity descending, then confidence
descending, then file ascending, then line ascending. -/
theorem adjLE_iff (a b : ReviewFinding) :
    adjLE a b ↔
      (severityRank b.severity < severityRank a.severity ∨
        (severityRank a.severity = severityRank b.severity ∧
          (confidenceRank b.confidence < confidenceRank a.confidence ∨
            (confidenceRank a.confidence = confidenceRank b.confidence ∧
              (a.file < b.file ∨ (a.file = b.file ∧ a.line ≤ b.line)))))) := by
  simp only [adjLE, adjCmp, strCmp]
  by_cases h1 : severityRank b.severity - severityRank a.severity ≠ 0
  · rw [if_pos h1]
    constructor
    · intro hle
      exact Or.inl (by omega)
    · rintro (hlt | ⟨heq, _⟩)
      · omega
      · omega
  · rw [if_neg h1]
    by_cases h2 : confidenceRank b.confidence - confidenceRank a.confidence ≠ 0
    · rw [if_pos h2]
      constructor
      · intro hle
        exact Or.inr ⟨by omega, Or.inl (by omega)⟩
      · rintro (hlt | ⟨heq, hlt2 | ⟨heq2, _⟩⟩)
        · omega
        · omega
        · omega
    · rw [if_neg h2]
      by_cases h3 : a.file ≠ b.file
      · rw [if_pos h3]
        rcases lt_trichotomy a.file b.file with hf | hf | hf
        · rw [if_pos hf]
          constructor
          · intro _
            exact Or.inr ⟨by omega, Or.inr ⟨by omega, Or.inl hf⟩⟩
          · intro _
            omega
        · exact absurd hf h3
        · rw [if_neg (lt_asymm hf), if_pos hf]
          constructor
          · intro hle
            omega
          · rintro (hlt | ⟨heq, hlt2 | ⟨heq2, hfl | ⟨hfe, _⟩⟩⟩)
            · omega
            · omega
            · exact absurd hfl (lt_asymm hf)
            · exact absurd hfe h3
      · rw [if_neg h3]
        push_neg at h3
        constructor
        · intro hle
          exact Or.inr ⟨by omega, Or.inr ⟨by omega, Or.inr ⟨h3, by omega⟩⟩⟩
        · rintro (hlt | ⟨heq, hlt2 | ⟨heq2, hfl | ⟨hfe, hline⟩⟩⟩)
          · omega
          · omega
          · exact absurd (h3 ▸ hfl) (lt_irrefl _)
          · omega

/-- The comparator order is total. -/
theorem adjLE_total (a b : ReviewFinding) : adjLE a b ∨ adjLE b a := by
  rw [adjLE_iff, adjLE_iff]
  rcases lt_trichotomy (severityRank a.severity) (severityRank b.severity) with h | h | h
  · exact Or.inr (Or.inl h)
  · rcases lt_trichotomy (confidenceRank a.confidence) (confidenceRank b.confidence) with
      h2 | h2 | h2
    · exact Or.inr (Or.inr ⟨h.symm, Or.inl h2⟩)
    · rcases lt_trichotomy a.file b.file with h3 | h3 | h3
      · exact Or.inl (Or.inr ⟨h, Or.inr ⟨h2, Or.inl h3⟩⟩)
      · rcases le_total a.line b.line with h4 | h4
        · exact Or.inl (Or.inr ⟨h, Or.inr ⟨h2, Or.inr ⟨h3, h4⟩⟩⟩)
        · exact Or.inr (Or.inr ⟨h.symm, Or.inr ⟨h2.symm, Or.inr ⟨h3.symm, h4⟩⟩⟩)
      · exact Or.inr (Or.inr ⟨h.symm, Or.inr ⟨h2.symm, Or.inl h3⟩⟩)
    · exact Or.inl (Or.inr ⟨h, Or.inl h2⟩)
  · exact Or.inl (Or.inl h)

/-- The comparator order is transitive. -/
theorem adjLE_trans (a b c : ReviewFinding) (hab : adjLE a b) (hbc : adjLE b c) :
    adjLE a c := by
  rw [adjLE_iff] at hab hbc ⊢
  rcases hab with h1 | ⟨e1, hab2⟩
  · rcases hbc with h2 | ⟨e2, _⟩
    · exact Or.inl (by omega)
    · exact Or.inl (by omega)
  · rcases hbc with h2 | ⟨e2, hbc2⟩
    · exact Or.inl (by omega)
    · refine Or.inr ⟨by omega, ?_⟩
      rcases hab2 with h3 | ⟨e3, hab3⟩
      · rcases hbc2 with h4 | ⟨e4, _⟩
        · exact Or.inl (by omega)
        · exact Or.inl (by omega)
      · rcases hbc2 with h4 | ⟨e4, hbc3⟩
        · exact Or.inl (by omega)
        · refine Or.inr ⟨by omega, ?_⟩
          rcases hab3 with h5 | ⟨e5, h5⟩
          · rcases hbc3 with h6 | ⟨e6, _⟩
            · exact Or.inl (lt_trans h5 h6)
            · exact Or.inl (lt_of_lt_of_eq h5 e6)
          · rcases hbc3 with h6 | ⟨e6, h6⟩
            · exact Or.inl (lt_of_eq_of_lt e5 h6)
            · exact Or.inr ⟨e5.trans e6, le_trans h5 h6⟩

/-- The severity rank lies between 1 and 5. -/
theorem severityRank_bounds (s : FindingSeverity) :
    1 ≤ severityRank s ∧ severityRank s ≤ 5 := by
  cases s <;> exact ⟨by norm_num [severityRank], by norm_num [severityRank]⟩

/-- The confidence rank lies between 1 and 3. -/
theorem confidenceRank_bounds (c : FindingConfidence) :
    1 ≤ confidenceRank c ∧ confidenceRank c ≤ 3 := by
  cases c <;> exact ⟨by norm_num [confidenceRank], by norm_num [confidenceRank]⟩

/-- An earlier element of the sort order has at least the remediation
priority of a later one. -/
theorem priority_le_of_adjLE {a b : ReviewFinding} (h : adjLE a b) :
    findingPriority b ≤ findingPriority a := by
  rw [adjLE_iff] at h
  have hsa := severityRank_bounds a.severity
  have hsb := severityRank_bounds b.severity
  have hca := confidenceRank_bounds a.confidence
  have hcb := confidenceRank_bounds b.confidence
  unfold findingPriority
  rcases h with h1 | ⟨e1, h2 | ⟨e2, _⟩⟩
  · omega
  · omega
  · omega

/-! ## Map invariants of the merge loop -/

/-- The providers copy taken on first insertion is the identity. -/
theorem providers_copy_eq (f : ReviewFinding) : { f with providers := f.providers } = f := rfl

/-- Every entry of a map after a set is the new pair or an old entry. -/
theorem mapSet_mem (m : List (String × ReviewFinding)) (k : String) (v : ReviewFinding) :
    ∀ p ∈ mapSet m k v, p = (k, v) ∨ p ∈ m := by
  induction m with
  | nil =>
    intro p hp
    simp only [mapSet] at hp
    simp at hp
    exact Or.inl hp
  | cons q rest ih =>
    intro p hp
    rw [mapSet] at hp
    by_cases hk : q.1 = k
    · rw [if_pos hk] at hp
      rcases List.mem_cons.mp hp with hp1 | hp2
      · exact Or.inl hp1
      · exact Or.inr (List.mem_cons_of_mem _ hp2)
    · rw [if_neg hk] at hp
      rcases List.mem_cons.mp hp with hp1 | hp2
      · exact Or.inr (hp1 ▸ List.mem_cons_self _ _)
      · rcases ih p hp2 with h | h
        · exact Or.inl h
        · exact Or.inr (List.mem_cons_of_mem _ h)

/-- A successful lookup pairs the key with an entry of the map. -/
theorem mapGet_some_mem (m : List (String × ReviewFinding)) (k : String)
    {v : ReviewFinding} (h : mapGet m k = some v) : (k, v) ∈ m := by
  induction m with
  | nil => simp [mapGet] at h
  | cons q rest ih =>
    rw [mapGet] at h
    by_cases hk : q.1 = k
    · rw [if_pos hk] at h
      have hv : v = q.2 := (Option.some.inj h).symm
      rw [hv, ← hk]
      exact List.mem_cons_self _ _
    · rw [if_neg hk] at h
      exact List.mem_cons_of_mem _ (ih h)

/-- Setting a fresh key appends the pair at the end. -/
theorem mapSet_fresh (m : List (String × ReviewFinding)) (k : String) (v : ReviewFinding)
    (h : mapGet m k = none) : mapSet m k v = m ++ [(k, v)] := by
  induction m with
  | nil => rfl
  | cons q rest ih =>
    rw [mapGet] at h
    by_cases hk : q.1 = k
    · rw [if_pos hk] at h
      cases h
    · rw [if_neg hk] at h
      rw [mapSet, if_neg hk, ih h]
      simp

/-- A lookup over an append with a key absent from both parts fails. -/
theorem mapGet_append_none (m m2 : List (String × ReviewFinding)) (k : String)
    (h1 : mapGet m k = none) (h2 : mapGet m2 k = none) : mapGet (m ++ m2) k = none := by
  induction m with
  | nil => simpa using h2
  | cons q rest ih =>
    rw [mapGet] at h1
    by_cases hk : q.1 = k
    · rw [if_pos hk] at h1
      cases h1
    · rw [if_neg hk] at h1
      rw [List.cons_append, mapGet, if_neg hk]
      exact ih h1

/-- Keys remain pairwise distinct under a set. -/
theorem mapSet_keysDistinct (m : List (String × ReviewFinding)) (k : String)
    (v : ReviewFinding) (h : m.Pairwise (fun p q => p.1 ≠ q.1)) :
    (mapSet m k v).Pairwise (fun p q => p.1 ≠ q.1) := by
  induction m with
  | nil => simp [mapSet]
  | cons q rest ih =>
    rw [List.pairwise_cons] at h
    rw [mapSet]
    by_cases hk : q.1 = k
    · rw [if_pos hk]
      rw [List.pairwise_cons]
      refine ⟨?_, h.2⟩
      intro p hp
      have := h.1 p hp
      rw [hk] at this
      exact this
    · rw [if_neg hk]
      rw [List.pairwise_cons]
      refine ⟨?_, ih h.2⟩
      intro p hp
      rcases mapSet_mem rest k v p hp with hp1 | hp2
      · rw [hp1]
        exact hk
      · exact h.1 p hp2

/-- The duplicate key of a finding with a usable fingerprint. -/
theorem buildDuplicateKey_some {v : ReviewFinding} {fp : String}
    (h : v.fingerprint = some fp) (hfp : ¬(fp = "")) : buildDuplicateKey v = fp := by
  unfold buildDuplicateKey
  rw [h]
  exact if_neg hfp

/-- The duplicate key of a finding without fingerprint. -/
theorem buildDuplicateKey_none {v : ReviewFinding} (h : v.fingerprint = none) :
    buildDuplicateKey v = derivedKey v := by
  unfold buildDuplicateKey
  rw [h]

/-- The invariant of the merge map: every entry is keyed by the duplicate key
of its value and carries no present-but-empty fingerprint. -/
def valuesKeyed (m : List (String × ReviewFinding)) : Prop :=
  ∀ p ∈ m, buildDuplicateKey p.2 = p.1 ∧ p.2.fingerprint ≠ some ""

/-- The merged entry built from two findings sharing a duplicate key is keyed
by that same key and carries no present-but-empty fingerprint, provided
neither input did. -/
theorem merged_entry_keyed (existing f w : ReviewFinding) (P : List String)
    (hw : w = f ∨ w = existing)
    (hkeyex : buildDuplicateKey existing = buildDuplicateKey f)
    (hexfp : existing.fingerprint ≠ some "") (hffp : f.fingerprint ≠ some "") :
    buildDuplicateKey
        { w with
          providers := P,
          fingerprint := existing.fingerprint.orElse fun _ => f.fingerprint } =
      buildDuplicateKey f ∧
    ({ w with
       providers := P,
       fingerprint := existing.fingerprint.orElse fun _ => f.fingerprint } :
      ReviewFinding).fingerprint ≠ some "" := by
  generalize hR : ({ w with
      providers := P,
      fingerprint := existing.fingerprint.orElse fun _ => f.fingerprint } :
    ReviewFinding) = R
  have hRf : R.fingerprint = existing.fingerprint.orElse fun _ => f.fingerprint := by
    rw [← hR]
  have hRd : derivedKey R = derivedKey w := by
    rw [← hR]
    exact rfl
  cases hef : existing.fingerprint with
  | some fp =>
    have hfp : ¬(fp = "") := fun h0 => hexfp (by rw [hef, h0])
    rw [hef] at hRf
    rw [show ((some fp).orElse fun _ => f.fingerprint) = some fp from rfl] at hRf
    constructor
    · rw [buildDuplicateKey_some hRf hfp]
      exact (buildDuplicateKey_some hef hfp).symm.trans hkeyex
    · rw [hRf]
      exact fun hcon => hfp (Option.some.inj hcon)
  | none =>
    rw [hef] at hRf
    rw [show ((none : Option String).orElse fun _ => f.fingerprint) = f.fingerprint
      from rfl] at hRf
    cases hff : f.fingerprint with
    | some fp =>
      have hfp : ¬(fp = "") := fun h0 => hffp (by rw [hff, h0])
      rw [hff] at hRf
      constructor
      · rw [buildDuplicateKey_some hRf hfp]
        exact (buildDuplicateKey_some hff hfp).symm
      · rw [hRf]
        exact fun hcon => hfp (Option.some.inj hcon)
    | none =>
      rw [hff] at hRf
      constructor
      · rw [buildDuplicateKey_none hRf, hRd]
        rcases hw with hwf | hwe
        · rw [hwf]
          exact (buildDuplicateKey_none hff).symm
        · rw [hwe]
          exact (buildDuplicateKey_none hef).symm.trans hkeyex
      · rw [hRf]
        exact fun hcon => Option.noConfusion hcon

/-- Inserting a finding without empty fingerprint preserves the keyed-values
invariant. -/
theorem adjInsert_valuesKeyed (m : List (String × ReviewFinding)) (f : ReviewFinding)
    (hm : valuesKeyed m) (hf : f.fingerprint ≠ some "") :
    valuesKeyed (adjInsert m f) := by
  intro p hp
  cases hget : mapGet m (buildDuplicateKey f) with
  | none =>
    simp only [adjInsert, hget] at hp
    rcases mapSet_mem _ _ _ p hp with hpe | hpm
    · rw [hpe]
      exact ⟨congrArg buildDuplicateKey (providers_copy_eq f), hf⟩
    · exact hm p hpm
  | some existing =>
    have hex := hm _ (mapGet_some_mem m _ hget)
    have hexkey : buildDuplicateKey existing = buildDuplicateKey f := hex.1
    have hexfp : existing.fingerprint ≠ some "" := hex.2
    simp only [adjInsert, hget] at hp
    rcases mapSet_mem _ _ _ p hp with hpe | hpm
    · rw [hpe]
      exact merged_entry_keyed existing f
        (if findingPriority existing < findingPriority f then f else existing)
        (mergeProviders existing.providers f.providers)
        (by
          by_cases hpri : findingPriority existing < findingPriority f
          · exact Or.inl (if_pos hpri)
          · exact Or.inr (if_neg hpri))
        hexkey hexfp hf
    · exact hm p hpm

/-- Inserting preserves key distinctness. -/
theorem adjInsert_keysDistinct (m : List (String × ReviewFinding)) (f : ReviewFinding)
    (h : m.Pairwise (fun p q => p.1 ≠ q.1)) :
    (adjInsert m f).Pairwise (fun p q => p.1 ≠ q.1) := by
  cases hget : mapGet m (buildDuplicateKey f) with
  | none =>
    simp only [adjInsert, hget]
    exact mapSet_keysDistinct _ _ _ h
  | some existing =>
    simp only [adjInsert, hget]
    exact mapSet_keysDistinct _ _ _ h

/-- The merge fold preserves both invariants. -/
theorem foldl_adjInsert_invariants (l : List ReviewFinding)
    (hl : ∀ f ∈ l, f.fingerprint ≠ some "") :
    ∀ m, valuesKeyed m → m.Pairwise (fun p q => p.1 ≠ q.1) →
      valuesKeyed (l.foldl adjInsert m) ∧
        (l.foldl adjInsert m).Pairwise (fun p q => p.1 ≠ q.1) := by
  induction l with
  | nil => intro m h1 h2; exact ⟨h1, h2⟩
  | cons f rest ih =>
    intro m h1 h2
    rw [List.foldl_cons]
    exact ih (fun g hg => hl g (List.mem_cons_of_mem _ hg)) _
      (adjInsert_valuesKeyed m f h1 (hl f (List.mem_cons_self _ _)))
      (adjInsert_keysDistinct m f h2)

/-! ## Adjudication of findings with pairwise distinct keys -/

/-- A singleton map lookup under a different key fails. -/
theorem mapGet_singleton_ne (k1 k2 : String) (v : ReviewFinding) (h : ¬(k1 = k2)) :
    mapGet [(k1, v)] k2 = none := by
  rw [mapGet, if_neg h]
  rfl

/-- Folding findings with pairwise distinct duplicate keys, all fresh for the
accumulated map, appends one entry per finding in order. -/
theorem foldl_adjInsert_fresh (l : List ReviewFinding) :
    ∀ m, (∀ f ∈ l, mapGet m (buildDuplicateKey f) = none) →
      l.Pairwise (fun a b => buildDuplicateKey a ≠ buildDuplicateKey b) →
      l.foldl adjInsert m = m ++ (l.map fun f => (buildDuplicateKey f, f)) := by
  induction l with
  | nil =>
    intro m _ _
    simp
  | cons f rest ih =>
    intro m hfresh hdist
    rw [List.foldl_cons]
    have hf := hfresh f (List.mem_cons_self _ _)
    have hstep : adjInsert m f = m ++ [(buildDuplicateKey f, f)] := by
      simp only [adjInsert, hf]
      rw [providers_copy_eq]
      exact mapSet_fresh _ _ _ hf
    rw [hstep]
    rw [List.pairwise_cons] at hdist
    rw [ih _ ?_ hdist.2]
    · simp
    · intro g hg
      apply mapGet_append_none
      · exact hfresh g (List.mem_cons_of_mem _ hg)
      · exact mapGet_singleton_ne _ _ _ fun hEq => hdist.1 g hg hEq

/-- On findings with pairwise distinct duplicate keys, adjudication is just
the stable sort. -/
theorem adjudicateFindings_of_distinct (l : List ReviewFinding)
    (hdist : l.Pairwise fun a b => buildDuplicateKey a ≠ buildDuplicateKey b) :
    adjudicateFindings l = List.insertionSort adjLE l := by
  unfold adjudicateFindings
  rw [foldl_adjInsert_fresh l [] (fun f _ => rfl) hdist]
  simp only [List.nil_append, List.map_map]
  have hid : (Prod.snd ∘ fun f : ReviewFinding => (buildDuplicateKey f, f)) = id := rfl
  rw [hid, List.map_id]

/-- The adjudicated list is sorted in the comparator order. -/
theorem adjudicateFindings_sorted (l : List ReviewFinding) :
    List.Sorted adjLE (adjudicateFindings l) := by
  haveI : IsTotal ReviewFinding adjLE := ⟨adjLE_total⟩
  haveI : IsTrans ReviewFinding adjLE := ⟨fun a b c => adjLE_trans a b c⟩
  exact List.sorted_insertionSort adjLE _

/-- When no input finding carries a present-but-empty fingerprint, the
adjudicated findings have pairwise distinct duplicate keys. -/
theorem adjudicateFindings_keys_distinct (l : List ReviewFinding)
    (hl : ∀ f ∈ l, f.fingerprint ≠ some "") :
    (adjudicateFindings l).Pairwise
      fun a b => buildDuplicateKey a ≠ buildDuplicateKey b := by
  obtain ⟨hkeyed, hdistinct⟩ := foldl_adjInsert_invariants l hl []
    (fun p hp => absurd hp (List.not_mem_nil p)) List.Pairwise.nil
  have hmap : ((l.foldl adjInsert []).map Prod.snd).Pairwise
      (fun a b => buildDuplicateKey a ≠ buildDuplicateKey b) := by
    rw [List.pairwise_map]
    refine hdistinct.imp_of_mem ?_
    intro p q hp hq hne
    rw [(hkeyed p hp).1, (hkeyed q hq).1]
    exact hne
  have hperm : (adjudicateFindings l).Perm ((l.foldl adjInsert []).map Prod.snd) := by
    unfold adjudicateFindings
    exact List.perm_insertionSort adjLE _
  exact (List.Perm.pairwise_iff (fun h hba => h hba.symm) hperm).mpr hmap

/-! ## Claim C5 -/

/-- Claim C5 (amended): adjudicateFindings is idempotent on every finding
list in which no finding carries a present-but-empty fingerprint. -/
theorem adjudicateFindings_idempotent (l : List ReviewFinding)
    (hl : ∀ f ∈ l, f.fingerprint ≠ some "") :
    adjudicateFindings (adjudicateFindings l) = adjudicateFindings l := by
  rw [adjudicateFindings_of_distinct _ (adjudicateFindings_keys_distinct l hl)]
  exact List.Sorted.insertionSort_eq (adjudicateFindings_sorted l)

/-- Claim C5 counterexample: with a present-but-empty fingerprint (treated as
absent by the key builder but kept by the fingerprint merge), the key of a
merged entry can change, so a second adjudication merges two entries the
first pass kept apart and the result is not a fixed point. -/
theorem adjudicateFindings_not_idempotent :
    adjudicateFindings (adjudicateFindings [cf1, cf2, cf3]) ≠
      adjudicateFindings [cf1, cf2, cf3] := by
  intro h
  have hlen := congrArg List.length h
  rw [show (adjudicateFindings (adjudicateFindings [cf1, cf2, cf3])).length = 1 from rfl,
    show (adjudicateFindings [cf1, cf2, cf3]).length = 2 from rfl] at hlen
  exact absurd hlen (by norm_num)

/-- Claim C5 witness: two duplicate findings with ordinary fingerprints. -/
theorem adjudicateFindings_idempotent_witness :
    adjudicateFindings (adjudicateFindings [tf1, tf2]) = adjudicateFindings [tf1, tf2] :=
  adjudicateFindings_idempotent [tf1, tf2] (by decide)

/-! ## Claim C3 -/

/-- Claim C3 (amended): when two findings share a duplicate key and have
equal priority, the merged result keeps the severity, confidence and message
of the earlier-processed finding (the comparison keeps the existing entry
unless the newcomer has strictly higher priority). -/
theorem adjudicateFindings_tie_keeps_earlier (f1 f2 : ReviewFinding)
    (hk : buildDuplicateKey f1 = buildDuplicateKey f2)
    (hp : findingPriority f1 = findingPriority f2) :
    (adjudicateFindings [f1, f2]).map (fun f => (f.severity, f.confidence, f.message)) =
      [(f1.severity, f1.confidence, f1.message)] := by
  unfold adjudicateFindings
  rw [List.foldl_cons, List.foldl_cons, List.foldl_nil]
  have h1 : adjInsert [] f1 = [(buildDuplicateKey f1, f1)] := rfl
  rw [h1]
  have hget : mapGet [(buildDuplicateKey f1, f1)] (buildDuplicateKey f2) = some f1 := by
    rw [← hk, mapGet, if_pos rfl]
  simp only [adjInsert, hget]
  have hw : (if findingPriority f1 < findingPriority f2 then f2 else f1) = f1 := by
    rw [hp]
    exact if_neg (lt_irrefl _)
  rw [hw, ← hk]
  rw [show ∀ v : ReviewFinding,
      mapSet [(buildDuplicateKey f1, f1)] (buildDuplicateKey f1) v =
        [(buildDuplicateKey f1, v)] from fun v => by rw [mapSet, if_pos rfl]]
  simp only [List.map_cons, List.map_nil, List.insertionSort, List.orderedInsert]

/-- Claim C3 counterexample: two equal-priority findings sharing a
fingerprint but with different messages; the adjudicated result keeps the
message of the earlier-processed finding, not the later one. -/
theorem adjudicateFindings_tie_counterexample :
    buildDuplicateKey tf1 = buildDuplicateKey tf2 ∧
      findingPriority tf1 = findingPriority tf2 ∧
      tf1.message ≠ tf2.message ∧
      (adjudicateFindings [tf1, tf2]).map (fun f => f.message) = [tf1.message] := by
  refine ⟨rfl, rfl, ?_, rfl⟩
  decide

/-- Claim C3 witness: the two fingerprint-sharing equal-priority findings. -/
theorem adjudicateFindings_tie_keeps_earlier_witness :
    (adjudicateFindings [tf1, tf2]).map (fun f => (f.severity, f.confidence, f.message)) =
      [(tf1.severity, tf1.confidence, tf1.message)] :=
  adjudicateFindings_tie_keeps_earlier tf1 tf2 rfl rfl

/-! ## Claim C6 -/

/-- Unfolding of one loop step below the attempt bound. -/
theorem remLoop_cons_go (applyFix : ReviewFinding → Except String Bool)
    (validate : Except String Bool) (maxAttempts : Nat) (f : ReviewFinding)
    (rest : List ReviewFinding) (res : RemediationResult)
    (h : ¬(maxAttempts ≤ res.attempted)) :
    remLoop applyFix validate maxAttempts (f :: rest) res =
      ((remLoop applyFix validate maxAttempts rest
          (applyOutcome applyFix validate f { res with attempted := res.attempted + 1 })).1,
        f :: (remLoop applyFix validate maxAttempts rest
          (applyOutcome applyFix validate f { res with attempted := res.attempted + 1 })).2) := by
  rw [remLoop, if_neg h]

/-- Unfolding of one loop step at the attempt bound. -/
theorem remLoop_cons_stop (applyFix : ReviewFinding → Except String Bool)
    (validate : Except String Bool) (maxAttempts : Nat) (f : ReviewFinding)
    (rest : List ReviewFinding) (res : RemediationResult)
    (h : maxAttempts ≤ res.attempted) :
    remLoop applyFix validate maxAttempts (f :: rest) res =
      ({ res with errors := res.errors ++
          ["Reached max remediation attempts (" ++ toString maxAttempts ++ ")"] }, []) := by
  rw [remLoop, if_pos h]

/-- Claim C6: with maxAttempts one and three current, non-informational
findings with pairwise distinct duplicate keys, the loop passes exactly one
finding to applyFix, that finding has maximal priority among the three, the
result reports one attempt, and the max-attempts error is recorded; the
remaining findings are neither attempted nor retried. -/
theorem runRemediationLoop_maxAttempts_one (o : RemediationOpts)
    (f1 f2 f3 : ReviewFinding)
    (hfind : o.findings = [f1, f2, f3])
    (hmax : o.config.maxAttempts = 1)
    (hsha : f1.headSha = o.currentHeadSha ∧ f2.headSha = o.currentHeadSha ∧
      f3.headSha = o.currentHeadSha)
    (hsev : f1.severity ≠ FindingSeverity.info ∧ f2.severity ≠ FindingSeverity.info ∧
      f3.severity ≠ FindingSeverity.info)
    (hkeys : buildDuplicateKey f1 ≠ buildDuplicateKey f2 ∧
      buildDuplicateKey f1 ≠ buildDuplicateKey f3 ∧
      buildDuplicateKey f2 ≠ buildDuplicateKey f3) :
    (runRemediationLoop o).attempted = 1 ∧
    "Reached max remediation attempts (1)" ∈ (runRemediationLoop o).errors ∧
    ∃ g, (runRemediationLoopWithTrace o).2 = [g] ∧ g ∈ [f1, f2, f3] ∧
      ∀ f ∈ [f1, f2, f3], findingPriority f ≤ findingPriority g := by
  have hdist : ([f1, f2, f3]).Pairwise
      (fun a b => buildDuplicateKey a ≠ buildDuplicateKey b) := by
    refine List.Pairwise.cons ?_ (List.Pairwise.cons ?_
      (List.Pairwise.cons ?_ List.Pairwise.nil))
    · intro b hb
      rcases List.mem_cons.mp hb with h | h
      · rw [h]
        exact hkeys.1
      · rw [List.mem_singleton.mp h]
        exact hkeys.2.1
    · intro b hb
      rw [List.mem_singleton.mp hb]
      exact hkeys.2.2
    · intro b hb
      exact absurd hb (List.not_mem_nil b)
  have hfresh : filterCurrentFindings o.findings o.currentHeadSha o.config =
      adjudicateFindings [f1, f2, f3] := by
    simp only [filterCurrentFindings, hfind]
    by_cases hs : o.config.skipStaleComments = true
    · simp [hs, List.filter_cons, hsev.1, hsev.2.1, hsev.2.2, hsha.1, hsha.2.1, hsha.2.2]
    · simp [hs, List.filter_cons, hsev.1, hsev.2.1, hsev.2.2]
  have hact : filterCurrentFindings o.findings o.currentHeadSha o.config =
      List.insertionSort adjLE [f1, f2, f3] :=
    hfresh.trans (adjudicateFindings_of_distinct _ hdist)
  have hlen : (List.insertionSort adjLE [f1, f2, f3]).length = 3 :=
    (List.perm_insertionSort adjLE [f1, f2, f3]).length_eq.trans rfl
  obtain ⟨g, x2, x3, hL⟩ := List.length_eq_three.mp hlen
  have hperm : (List.insertionSort adjLE [f1, f2, f3]).Perm [f1, f2, f3] :=
    List.perm_insertionSort adjLE [f1, f2, f3]
  have hsorted : List.Sorted adjLE (List.insertionSort adjLE [f1, f2, f3]) := by
    haveI : IsTotal ReviewFinding adjLE := ⟨adjLE_total⟩
    haveI : IsTrans ReviewFinding adjLE := ⟨fun a b c => adjLE_trans a b c⟩
    exact List.sorted_insertionSort adjLE _
  rw [hL] at hperm hsorted
  have hgmem : g ∈ [f1, f2, f3] := hperm.subset (List.mem_cons_self _ _)
  have hgmax : ∀ f ∈ [f1, f2, f3], findingPriority f ≤ findingPriority g := by
    intro f hf
    have hfL : f ∈ [g, x2, x3] := hperm.symm.subset hf
    rcases List.mem_cons.mp hfL with hfg | hftail
    · rw [hfg]
    · have hrel : adjLE g f := by
        rw [List.sorted_cons] at hsorted
        exact hsorted.1 f hftail
      exact priority_le_of_adjLE hrel
  have hrun : runRemediationLoopWithTrace o =
      remLoop o.applyFix o.validate 1 [g, x2, x3]
        { attempted := 0, succeeded := 0,
          skipped := o.findings.length -
            (filterCurrentFindings o.findings o.currentHeadSha o.config).length,
          errors := [] } := by
    unfold runRemediationLoopWithTrace
    rw [hmax, hact, hL]
  set res0 : RemediationResult :=
    { attempted := 0, succeeded := 0,
      skipped := o.findings.length -
        (filterCurrentFindings o.findings o.currentHeadSha o.config).length,
      errors := [] } with hres0
  have hstep1 := remLoop_cons_go o.applyFix o.validate 1 g [x2, x3] res0 (by
    rw [hres0]
    norm_num)
  set res2 := applyOutcome o.applyFix o.validate g
    { res0 with attempted := res0.attempted + 1 } with hres2
  obtain ⟨hat, hsk, es, hes⟩ := applyOutcome_counters o.applyFix o.validate g
    { res0 with attempted := res0.attempted + 1 }
  rw [← hres2] at hat hsk hes
  have hat1 : res2.attempted = 1 := by
    rw [hat, hres0]
  have hstep2 := remLoop_cons_stop o.applyFix o.validate 1 x2 [x3] res2 (by rw [hat1])
  have hval : remLoop o.applyFix o.validate 1 [g, x2, x3] res0 =
      ({ res2 with errors := res2.errors ++ ["Reached max remediation attempts (1)"] },
        [g]) := by
    rw [hstep1, hstep2]
    rfl
  have hrun1 : runRemediationLoop o =
      { res2 with errors := res2.errors ++ ["Reached max remediation attempts (1)"] } := by
    unfold runRemediationLoop
    rw [hrun, hval]
  have htrace : (runRemediationLoopWithTrace o).2 = [g] := by
    rw [hrun, hval]
  rw [hrun1]
  refine ⟨hat1, ?_, g, htrace, hgmem, hgmax⟩
  exact List.mem_append_right _ (List.mem_singleton.mpr rfl)

/-- Claim C6 witness: three current findings of descending priority under an
attempt bound of one. -/
theorem runRemediationLoop_maxAttempts_one_witness :
    (runRemediationLoop gOpts).attempted = 1 ∧
    "Reached max remediation attempts (1)" ∈ (runRemediationLoop gOpts).errors ∧
    ∃ g, (runRemediationLoopWithTrace gOpts).2 = [g] ∧ g ∈ [gf1, gf2, gf3] ∧
      ∀ f ∈ [gf1, gf2, gf3], findingPriority f ≤ findingPriority g :=
  runRemediationLoop_maxAttempts_one gOpts gf1 gf2 gf3 rfl rfl ⟨rfl, rfl, rfl⟩
    (by decide) (by decide)

end GPC
